import Mathlib

/-!
Verification of the quick-input subsystem of `quick-clip-manager` (`src/main.py`,
class `QuickClipManager`) against its natural-language specification.

The embedding models:
* Python `str.strip` / `str.lower` / `startswith('/')` / `text[1:]` on ASCII text;
* the SQLite queries of `update_suggestions` (lines 278-324) and
  `process_quick_input` (lines 504-557): `LIKE '%t%'` filtering,
  `ORDER BY CASE ... END, LENGTH(alias), alias` ranking, and `LIMIT`;
* the overlay session state (`is_quick_window_visible`, suggestion-window
  visibility, `current_suggestions`, the quick-entry text) and the
  event handlers bound in `create_quick_input_window` /
  `create_suggestion_window` (lines 206-276):
  `process_quick_input`, `update_suggestions`, `use_suggestion`,
  `hide_suggestions`, `hide_quick_input`, `show_quick_input`,
  `toggle_quick_input`.

Fallible external calls are modelled by explicit parameters: `dbFail` is the
outcome of the SQLite query (`none` = rows returned, `some msg` = the driver
raised with message `msg`), `clipOk` is the outcome of `pyperclip.copy`.
Side effects (clipboard writes, notifications, log prints) are collected in an
`Effects` record.
-/

/-! ## String primitives (ASCII model of the Python string operations) -/

/-- Python `text.startswith('/')`: first character is the trigger character. -/
def startsSlash (s : String) : Bool :=
  match s.toList with
  | [] => false
  | c :: _ => c == '/'

/-- Python `text[1:]`: drop the first character. -/
def strTail (s : String) : String := String.mk (s.toList.drop 1)

/-- Python `text.lower()` / SQLite `LOWER`, restricted to ASCII case folding
(`Char.toLower` lowers exactly the ASCII uppercase letters, which matches
SQLite `LOWER`; Python's `str.lower` agrees on ASCII). -/
def lowerStr (s : String) : String := String.mk (s.toList.map Char.toLower)

/-- Strip whitespace from both ends of a character list. -/
def stripL (l : List Char) : List Char :=
  ((l.dropWhile Char.isWhitespace).reverse.dropWhile Char.isWhitespace).reverse

/-- Python `text.strip()` (ASCII whitespace). -/
def pyStrip (s : String) : String := String.mk (stripL s.toList)

/-- `prefixB pat l` holds when `pat` is literally a prefix of `l`.  This is
the spec's reading of the prefix tier; the source's tier test is the `LIKE`
pattern `'term%'`, which coincides with it exactly when the term has no
wildcard character (`likeMatch_prefix_noWild`). -/
def prefixB : List Char → List Char → Bool
  | [], _ => true
  | _ :: _, [] => false
  | a :: as, b :: bs => a == b && prefixB as bs

/-- `containsL pat l` holds when `pat` occurs literally and contiguously
inside `l`.  This is the spec's reading of "alias contains the term"; the
source's filter is the `LIKE` pattern `'%term%'`, which coincides with it
exactly when the term has no wildcard character
(`likeMatch_contains_noWild`). -/
def containsL (pat : List Char) : List Char → Bool
  | [] => pat.isEmpty
  | c :: rest => prefixB pat (c :: rest) || containsL pat rest

/-- The empty pattern occurs in every list. -/
theorem containsL_nil (l : List Char) : containsL [] l = true := by
  cases l with
  | nil => rfl
  | cons c rest => simp [containsL, prefixB]

/-- `anyTail f l` holds when `f` holds of some suffix of `l` (including `l`
itself and the empty suffix): the search a `'%'` wildcard performs. -/
def anyTail (f : List Char → Bool) : List Char → Bool
  | [] => f []
  | c :: t => f (c :: t) || anyTail f t

/-- SQLite `LIKE` pattern matching, as applied to the patterns the source
builds by interpolating the raw search text (src/main.py lines 299 and 526):
`'%'` matches any sequence of characters (also none), `'_'` matches exactly
one character, any other pattern character matches itself.  Both call sites
compare an already ASCII-lowercased pattern against the `LOWER`ed alias, so
plain character equality realises SQLite's ASCII case folding. -/
def likeMatch : List Char → List Char → Bool
  | [], l => l.isEmpty
  | p :: ps, l =>
    if p = '%' then anyTail (fun t => likeMatch ps t) l
    else
      match l with
      | [] => false
      | c :: t => (p == '_' || p == c) && likeMatch ps t

/-- Unfolding of `likeMatch` at an empty pattern. -/
theorem likeMatch_nil_pat (l : List Char) : likeMatch [] l = l.isEmpty := rfl

/-- Unfolding of `likeMatch` at a non-empty pattern. -/
theorem likeMatch_cons_pat (p : Char) (ps l : List Char) :
    likeMatch (p :: ps) l =
      if p = '%' then anyTail (fun t => likeMatch ps t) l
      else
        match l with
        | [] => false
        | c :: t => (p == '_' || p == c) && likeMatch ps t := rfl

/-- True when the term contains neither of the `LIKE` wildcard characters,
so that the interpolated pattern behaves literally. -/
def noWildcards (l : List Char) : Bool :=
  l.all (fun c => !(c == '%') && !(c == '_'))

theorem anyTail_isEmpty_eq_true (l : List Char) :
    anyTail (fun t => t.isEmpty) l = true := by
  induction l with
  | nil => rfl
  | cons c r ih => simp [anyTail, ih]

/-- For a wildcard-free term `t`, the pattern `'t%'` matches exactly the
lists with literal prefix `t`. -/
theorem likeMatch_prefix_noWild : ∀ t : List Char, noWildcards t = true →
    ∀ l : List Char, likeMatch (t ++ ['%']) l = prefixB t l := by
  intro t
  induction t with
  | nil =>
    intro _ l
    show likeMatch ['%'] l = prefixB [] l
    rw [likeMatch_cons_pat, if_pos rfl]
    have hfun : (fun t : List Char => likeMatch [] t) =
        (fun t : List Char => t.isEmpty) := by
      funext s
      rw [likeMatch_nil_pat]
    rw [hfun, anyTail_isEmpty_eq_true]
    rfl
  | cons p ps ih =>
    intro h l
    have hh : (!(p == '%') && !(p == '_')) = true ∧ noWildcards ps = true := by
      simpa [noWildcards] using h
    have hp1 : (p == '%') = false := by
      have := (Bool.and_eq_true _ _).mp hh.1
      simpa using this.1
    have hp2 : (p == '_') = false := by
      have := (Bool.and_eq_true _ _).mp hh.1
      simpa using this.2
    have hp3 : ¬ p = '%' := by
      intro hc
      rw [hc] at hp1
      simp at hp1
    rw [List.cons_append, likeMatch_cons_pat, if_neg hp3]
    cases l with
    | nil => rfl
    | cons c r =>
      show ((p == '_' || p == c) && likeMatch (ps ++ ['%']) r) =
        prefixB (p :: ps) (c :: r)
      rw [hp2, ih hh.2 r, Bool.false_or]
      rfl

theorem anyTail_prefixB (t l : List Char) :
    anyTail (fun s => prefixB t s) l = containsL t l := by
  induction l with
  | nil =>
    show prefixB t [] = containsL t []
    cases t <;> rfl
  | cons c r ih =>
    show (prefixB t (c :: r) || anyTail (fun s => prefixB t s) r) =
      containsL t (c :: r)
    rw [ih]
    rfl

/-- For a wildcard-free term `t`, the pattern `'%t%'` matches exactly the
lists literally containing `t`. -/
theorem likeMatch_contains_noWild (t : List Char) (h : noWildcards t = true)
    (l : List Char) :
    likeMatch ('%' :: (t ++ ['%'])) l = containsL t l := by
  rw [likeMatch_cons_pat, if_pos rfl]
  have hfun : (fun s : List Char => likeMatch (t ++ ['%']) s) =
      (fun s : List Char => prefixB t s) := by
    funext s
    exact likeMatch_prefix_noWild t h s
  rw [hfun, anyTail_prefixB]

/-! ## The SQL ordering keys

SQLite's `ORDER BY k1, k2, k3` over distinct keys is the lexicographic order on
the key triples.  `lexLe` is byte order on ASCII text (SQLite's default BINARY
collation), `keyLe` is the lexicographic order on `(tier, length, alias)`
triples. -/

/-- Lexicographic (byte-order) comparison of character lists, as SQLite's
BINARY collation orders `TEXT` values (on ASCII, code-point order and byte
order coincide). -/
def lexLe : List Char → List Char → Bool
  | [], _ => true
  | _ :: _, [] => false
  | a :: as, b :: bs =>
    if a.toNat < b.toNat then true
    else if b.toNat < a.toNat then false
    else lexLe as bs

theorem lexLe_refl (l : List Char) : lexLe l l = true := by
  induction l with
  | nil => rfl
  | cons a as ih => simp [lexLe, ih]

theorem lexLe_total (l1 l2 : List Char) : lexLe l1 l2 = true ∨ lexLe l2 l1 = true := by
  induction l1 generalizing l2 with
  | nil => exact Or.inl rfl
  | cons a as ih =>
    cases l2 with
    | nil => exact Or.inr rfl
    | cons b bs =>
      by_cases h1 : a.toNat < b.toNat
      · exact Or.inl (by simp [lexLe, h1])
      · by_cases h2 : b.toNat < a.toNat
        · exact Or.inr (by simp [lexLe, h2])
        · rcases ih bs with h | h
          · exact Or.inl (by simp [lexLe, h1, h2, h])
          · exact Or.inr (by simp [lexLe, h1, h2, h])

theorem lexLe_trans (l1 l2 l3 : List Char) (h12 : lexLe l1 l2 = true)
    (h23 : lexLe l2 l3 = true) : lexLe l1 l3 = true := by
  induction l1 generalizing l2 l3 with
  | nil => rfl
  | cons a as ih =>
    cases l2 with
    | nil => simp [lexLe] at h12
    | cons b bs =>
      cases l3 with
      | nil => simp [lexLe] at h23
      | cons c cs =>
        by_cases hab : a.toNat < b.toNat
        · by_cases hbc : b.toNat < c.toNat
          · have hac : a.toNat < c.toNat := Nat.lt_trans hab hbc
            simp [lexLe, hac]
          · by_cases hcb : c.toNat < b.toNat
            · simp [lexLe, hbc, hcb] at h23
            · have hac : a.toNat < c.toNat := by omega
              simp [lexLe, hac]
        · by_cases hba : b.toNat < a.toNat
          · simp [lexLe, hab, hba] at h12
          · simp only [lexLe, if_neg hab, if_neg hba] at h12
            by_cases hbc : b.toNat < c.toNat
            · have hac : a.toNat < c.toNat := by omega
              simp [lexLe, hac]
            · by_cases hcb : c.toNat < b.toNat
              · simp [lexLe, hbc, hcb] at h23
              · simp only [lexLe, if_neg hbc, if_neg hcb] at h23
                have hac : ¬ a.toNat < c.toNat := by omega
                have hca : ¬ c.toNat < a.toNat := by omega
                simp only [lexLe, if_neg hac, if_neg hca]
                exact ih bs cs h12 h23

/-- Lexicographic order on a `(tier, length, alias)` sort key, exactly the
`ORDER BY tier, LENGTH(alias), alias` clause of the source queries. -/
def keyLe : Nat × Nat × List Char → Nat × Nat × List Char → Bool
  | (t1, n1, a1), (t2, n2, a2) =>
    if t1 < t2 then true
    else if t2 < t1 then false
    else if n1 < n2 then true
    else if n2 < n1 then false
    else lexLe a1 a2

theorem keyLe_iff (t1 n1 a1 t2 n2 a2) :
    keyLe (t1, n1, a1) (t2, n2, a2) = true ↔
      t1 < t2 ∨ (t1 = t2 ∧ (n1 < n2 ∨ (n1 = n2 ∧ lexLe a1 a2 = true))) := by
  simp only [keyLe]
  by_cases h1 : t1 < t2
  · simp [h1]
  · by_cases h2 : t2 < t1
    · have hne : t1 ≠ t2 := by omega
      simp [h1, h2, hne]
    · have he : t1 = t2 := by omega
      by_cases h3 : n1 < n2
      · simp [h1, h2, h3, he]
      · by_cases h4 : n2 < n1
        · have hne : n1 ≠ n2 := by omega
          simp [h1, h2, h3, h4, he, hne]
        · have hn : n1 = n2 := by omega
          simp [h1, h2, h3, h4, he, hn]

theorem keyLe_refl (k : Nat × Nat × List Char) : keyLe k k = true := by
  obtain ⟨t, n, a⟩ := k
  rw [keyLe_iff]
  exact Or.inr ⟨rfl, Or.inr ⟨rfl, lexLe_refl a⟩⟩

theorem keyLe_total (k1 k2 : Nat × Nat × List Char) :
    keyLe k1 k2 = true ∨ keyLe k2 k1 = true := by
  obtain ⟨t1, n1, a1⟩ := k1
  obtain ⟨t2, n2, a2⟩ := k2
  rw [keyLe_iff, keyLe_iff]
  rcases Nat.lt_trichotomy t1 t2 with h | h | h
  · exact Or.inl (Or.inl h)
  · rcases Nat.lt_trichotomy n1 n2 with h2 | h2 | h2
    · exact Or.inl (Or.inr ⟨h, Or.inl h2⟩)
    · rcases lexLe_total a1 a2 with h3 | h3
      · exact Or.inl (Or.inr ⟨h, Or.inr ⟨h2, h3⟩⟩)
      · exact Or.inr (Or.inr ⟨h.symm, Or.inr ⟨h2.symm, h3⟩⟩)
    · exact Or.inr (Or.inr ⟨h.symm, Or.inl h2⟩)
  · exact Or.inr (Or.inl h)

theorem keyLe_trans (k1 k2 k3 : Nat × Nat × List Char)
    (h12 : keyLe k1 k2 = true) (h23 : keyLe k2 k3 = true) : keyLe k1 k3 = true := by
  obtain ⟨t1, n1, a1⟩ := k1
  obtain ⟨t2, n2, a2⟩ := k2
  obtain ⟨t3, n3, a3⟩ := k3
  rw [keyLe_iff] at h12 h23 ⊢
  rcases h12 with h12 | ⟨ht12, h12⟩
  · rcases h23 with h23 | ⟨ht23, _⟩
    · exact Or.inl (Nat.lt_trans h12 h23)
    · exact Or.inl (ht23 ▸ h12)
  · rcases h23 with h23 | ⟨ht23, h23⟩
    · exact Or.inl (ht12 ▸ h23)
    · refine Or.inr ⟨ht12.trans ht23, ?_⟩
      rcases h12 with h12 | ⟨hn12, h12⟩
      · rcases h23 with h23 | ⟨hn23, _⟩
        · exact Or.inl (Nat.lt_trans h12 h23)
        · exact Or.inl (hn23 ▸ h12)
      · rcases h23 with h23 | ⟨hn23, h23⟩
        · exact Or.inl (hn12 ▸ h23)
        · exact Or.inr ⟨hn12.trans hn23, lexLe_trans a1 a2 a3 h12 h23⟩

/-! ## Insertion sort

A deterministic model of the `ORDER BY` clause: `iSort le l` sorts `l` by the
boolean comparison `le`.  The rows of a SQLite `ORDER BY` with a key that is
total on the rows (here the key ends with the `UNIQUE` column `alias`) are the
sorted permutation of the filtered rows, which is what the lemmas below give. -/

def oInsert (le : α → α → Bool) (a : α) : List α → List α
  | [] => [a]
  | b :: l => if le a b then a :: b :: l else b :: oInsert le a l

def iSort (le : α → α → Bool) : List α → List α
  | [] => []
  | a :: l => oInsert le a (iSort le l)

theorem oInsert_perm (le : α → α → Bool) (a : α) (l : List α) :
    List.Perm (oInsert le a l) (a :: l) := by
  induction l with
  | nil => exact List.Perm.refl [a]
  | cons b t ih =>
    simp only [oInsert]
    by_cases h : le a b = true
    · rw [if_pos h]
    · rw [if_neg h]
      exact (ih.cons b).trans (List.Perm.swap a b t)

theorem iSort_perm (le : α → α → Bool) (l : List α) : List.Perm (iSort le l) l := by
  induction l with
  | nil => exact List.Perm.refl []
  | cons a t ih =>
    simp only [iSort]
    exact (oInsert_perm le a (iSort le t)).trans (ih.cons a)

theorem iSort_eq_nil_iff (le : α → α → Bool) (l : List α) :
    iSort le l = [] ↔ l = [] := by
  constructor
  · intro h
    have hlen := (iSort_perm le l).length_eq
    rw [h] at hlen
    exact List.length_eq_zero.mp hlen.symm
  · intro h
    subst h
    rfl

theorem pairwise_oInsert (le : α → α → Bool)
    (htot : ∀ a b, le a b = true ∨ le b a = true)
    (htr : ∀ a b c, le a b = true → le b c = true → le a c = true)
    (a : α) (l : List α)
    (hl : l.Pairwise (fun x y => le x y = true)) :
    (oInsert le a l).Pairwise (fun x y => le x y = true) := by
  induction l with
  | nil => simp [oInsert]
  | cons b t ih =>
    have hb : ∀ y ∈ t, le b y = true := (List.pairwise_cons.mp hl).1
    have ht : t.Pairwise (fun x y => le x y = true) := (List.pairwise_cons.mp hl).2
    simp only [oInsert]
    by_cases h : le a b = true
    · rw [if_pos h]
      refine List.pairwise_cons.mpr ⟨?_, hl⟩
      intro y hy
      rcases List.mem_cons.mp hy with rfl | hyt
      · exact h
      · exact htr a b y h (hb y hyt)
    · have hba : le b a = true := (htot a b).resolve_left h
      rw [if_neg h]
      refine List.pairwise_cons.mpr ⟨?_, ih ht⟩
      intro y hy
      have hy2 : y ∈ a :: t := (oInsert_perm le a t).mem_iff.mp hy
      rcases List.mem_cons.mp hy2 with rfl | hyt
      · exact hba
      · exact hb y hyt

theorem pairwise_iSort (le : α → α → Bool)
    (htot : ∀ a b, le a b = true ∨ le b a = true)
    (htr : ∀ a b c, le a b = true → le b c = true → le a c = true)
    (l : List α) :
    (iSort le l).Pairwise (fun x y => le x y = true) := by
  induction l with
  | nil => simp [iSort]
  | cons a t ih =>
    simp only [iSort]
    exact pairwise_oInsert le htot htr a (iSort le t) ih

/-- The head of a list sorted by a reflexive comparison is a member that is
below every element of the list. -/
theorem head_min (le : α → α → Bool) (hrefl : ∀ a, le a a = true)
    (l : List α) (x : α)
    (hp : l.Pairwise (fun a b => le a b = true)) (hh : l.head? = some x) :
    x ∈ l ∧ ∀ y ∈ l, le x y = true := by
  cases l with
  | nil => simp at hh
  | cons a tl =>
    have hx : x = a := by simpa using hh.symm
    rw [hx]
    refine ⟨List.mem_cons_self a tl, ?_⟩
    intro y hy
    rcases List.mem_cons.mp hy with hya | hyt
    · rw [hya]
      exact hrefl a
    · exact (List.pairwise_cons.mp hp).1 y hyt

/-! ## The alias store and the match engine

A `Store` is the `aliases` table of `quickclip.db` as a list of
`(alias, content)` rows, in table (insertion) order.  The `alias` column is
`UNIQUE`, but none of the definitions below depend on uniqueness.

The engine definitions below are the SQL of `update_suggestions`
(src/main.py lines 286-313) and `process_quick_input` (lines 513-527). -/

/-- The `aliases` table: `(alias, content)` rows in table order. -/
abbrev Store := List (String × String)

/-- The `WHERE LOWER(alias) LIKE '%t%'` filter of both the suggestion query
and the partial-match query: the raw search text `t` (already lowercased) is
interpolated into the pattern, so its `%` and `_` act as `LIKE` wildcards. -/
def matchPred (t : String) (row : String × String) : Bool :=
  likeMatch ('%' :: (t.toList ++ ['%'])) (lowerStr row.1).toList

/-- The `CASE WHEN LOWER(alias) = t THEN 0 WHEN LOWER(alias) LIKE 't%' THEN 1
ELSE 2 END` ranking tier of the suggestion query (lines 290-295); the tier-1
test is again a `LIKE` pattern built from the raw term. -/
def tierOf (t : String) (row : String × String) : Nat :=
  if lowerStr row.1 = t then 0
  else if likeMatch (t.toList ++ ['%']) (lowerStr row.1).toList then 1
  else 2

/-- Full sort key of the suggestion query:
`ORDER BY CASE ... END, LENGTH(alias), alias` (lines 290-297). -/
def rankKey (t : String) (row : String × String) : Nat × Nat × List Char :=
  (tierOf t row, row.1.length, row.1.toList)

/-- Row comparison realising the suggestion query's `ORDER BY` clause. -/
def rankLe (t : String) (x y : String × String) : Bool :=
  keyLe (rankKey t x) (rankKey t y)

/-- Spec-side tier, following the spec's words: exact match, then aliases
literally starting with the term, then aliases literally containing it.  It
is compared against the source's `LIKE`-based `tierOf`, with which it
coincides exactly for wildcard-free terms (`tierOf_noWild`). -/
def specTierOf (t : String) (row : String × String) : Nat :=
  if lowerStr row.1 = t then 0
  else if prefixB t.toList (lowerStr row.1).toList then 1
  else 2

/-- Spec-side row comparison built from `specTierOf`. -/
def specRankLe (t : String) (x y : String × String) : Bool :=
  keyLe (specTierOf t x, x.1.length, x.1.toList)
        (specTierOf t y, y.1.length, y.1.toList)

/-- Sort key of the partial-match fallback of `process_quick_input`:
`ORDER BY LENGTH(alias), alias` (line 525); the constant first component
lets it share `keyLe` with the ranked suggestion query. -/
def partialKey (row : String × String) : Nat × Nat × List Char :=
  (0, row.1.length, row.1.toList)

/-- Row comparison realising `ORDER BY LENGTH(alias), alias`. -/
def partialLe (x y : String × String) : Bool :=
  keyLe (partialKey x) (partialKey y)

/-- Suggestion query (lines 286-299): rows whose lowercased alias contains the
search text, in ranked order, at most 10 (`LIMIT 10`). -/
def searchRows (t : String) (store : Store) : Store :=
  (iSort (rankLe t) (store.filter (matchPred t))).take 10

/-- Bare-trigger query (lines 310-313): `SELECT alias, content FROM aliases
ORDER BY alias LIMIT 10`. -/
def listAllRows (store : Store) : Store :=
  (iSort (fun x y => lexLe x.1.toList y.1.toList) store).take 10

/-- Exact-match query of `process_quick_input` (lines 514-517):
`WHERE LOWER(alias) = t COLLATE NOCASE` (`t` is already lowercase, so the
comparison is equality of the lowercased alias with `t`). -/
def exactRows (t : String) (store : Store) : Store :=
  store.filter (fun row => decide (lowerStr row.1 = t))

/-- Partial-match query of `process_quick_input` (lines 522-526):
`WHERE LOWER(alias) LIKE '%t%' ORDER BY LENGTH(alias), alias` (the `LIMIT 1`
is realised by taking the head of the sorted rows). -/
def partialRows (t : String) (store : Store) : Store :=
  iSort partialLe (store.filter (matchPred t))

/-- Commit-time resolution of `process_quick_input` (lines 513-527): the first
row of the exact-match query (`fetchone`, table order); if there is none, the
first row of the length/alias-ordered partial-match query. -/
def resolveQuery (t : String) (store : Store) : Option String :=
  match (exactRows t store).head? with
  | some row => some row.2
  | none => (partialRows t store).head?.map (fun row => row.2)

/-- The pure keystroke match result of `update_suggestions` (lines 278-320)
for entry text `q`: strip, check the trigger character, lowercase the rest,
then either list all aliases (bare trigger) or run the ranked search. -/
def matchRows (q : String) (store : Store) : Store :=
  let text := pyStrip q
  if startsSlash text then
    let searchText := lowerStr (strTail text)
    if searchText.toList.isEmpty then listAllRows store
    else searchRows searchText store
  else []

/-! ## The overlay session and its event handlers

`OverlayState` collects the mutable session state of `QuickClipManager` that
the quick-input handlers read and write: `is_quick_window_visible`
(`quickVisible`), whether the suggestion window is deiconified (`suggVisible`),
`current_suggestions`, and the text of `quick_entry` (`entryText`). -/

structure OverlayState where
  quickVisible : Bool
  suggVisible : Bool
  currentSuggestions : Store
  entryText : String
deriving DecidableEq

/-- Observable side effects of one handler run: successful clipboard writes
(`pyperclip.copy`), notifications (`show_notification`), and log prints. -/
structure Effects where
  clipboardWrites : List String
  notifications : List String
  logs : List String
deriving DecidableEq

/-- A handler run with no side effects. -/
def noEffects : Effects := ⟨[], [], []⟩

/-- `show_suggestions` (lines 326-360): rebuild `current_suggestions` from the
matches and deiconify the suggestion window. -/
def showSuggestions (found : Store) (s : OverlayState) : OverlayState :=
  { s with suggVisible := true, currentSuggestions := found }

/-- `hide_suggestions` (lines 362-369): withdraw the suggestion window and
clear `current_suggestions`. -/
def hideSuggestions (s : OverlayState) : OverlayState :=
  { s with suggVisible := false, currentSuggestions := [] }

/-- `hide_quick_input` (lines 481-491): withdraw both windows and clear the
visibility flag; the entry text and `current_suggestions` are not touched. -/
def hideQuickInput (s : OverlayState) : OverlayState :=
  { s with quickVisible := false, suggVisible := false }

/-- `show_quick_input` (lines 449-479): centre and deiconify the quick window
and clear the entry (`self.quick_entry.delete(0, tk.END)`, line 467); the
suggestion window and `current_suggestions` are not touched. -/
def showQuickInput (s : OverlayState) : OverlayState :=
  { s with quickVisible := true, entryText := "" }

/-- `toggle_quick_input` (lines 493-502). -/
def toggleQuickInput (s : OverlayState) : OverlayState :=
  if s.quickVisible then hideQuickInput s else showQuickInput s

/-- Escape pressed while the entry has focus: bound to `toggle_quick_input`
(line 230). -/
def escapeOnInput (s : OverlayState) : OverlayState × Effects :=
  (toggleQuickInput s, noEffects)

/-- Escape pressed while the suggestion listbox has focus: bound to
`hide_suggestions` (line 266). -/
def escapeOnList (s : OverlayState) : OverlayState × Effects :=
  (hideSuggestions s, noEffects)

/-- The search term `process_quick_input` resolves on:
`text = entry.strip()`, then `text[1:].lower()` (lines 507-509). -/
def commitTerm (s : OverlayState) : String :=
  lowerStr (strTail (pyStrip s.entryText))

/-- `update_suggestions` (lines 278-324), with the SQLite outcome made
explicit.  The whole body runs in a `try/except` that only prints on error
(lines 322-324), so a failing query leaves the session state unchanged. -/
def updateSuggestions (store : Store) (dbFail : Option String) (s : OverlayState) :
    OverlayState × Effects :=
  if startsSlash (pyStrip s.entryText) then
    match dbFail with
    | some msg =>
        (s, { noEffects with logs := ["Error updating suggestions: " ++ msg] })
    | none =>
        let found := matchRows s.entryText store
        if found.isEmpty then (hideSuggestions s, noEffects)
        else (showSuggestions found s, noEffects)
  else (hideSuggestions s, noEffects)

/-- `process_quick_input` (lines 504-557), with the SQLite and clipboard
outcomes made explicit.  The entry is cleared at line 552 on every path that
reaches it (every path: the two inner `except` blocks handle their
exceptions).  On a successful copy the overlay is hidden (line 539); on a
clipboard failure the `except` block at lines 541-543 logs and notifies but
does not hide; on no match the handler notifies and falls through (lines
544-546); on a database error it notifies (lines 548-550). -/
def processQuickInput (store : Store) (dbFail : Option String) (clipOk : Bool)
    (s : OverlayState) : OverlayState × Effects :=
  if startsSlash (pyStrip s.entryText) then
    match dbFail with
    | some msg =>
        ({ s with entryText := "" },
         { noEffects with logs := ["Database error: " ++ msg],
                          notifications := ["Database error: " ++ msg] })
    | none =>
        match resolveQuery (commitTerm s) store with
        | some content =>
            if clipOk then
              ({ s with quickVisible := false, suggVisible := false, entryText := "" },
               { noEffects with clipboardWrites := [content],
                                notifications := ["Copied content to clipboard"] })
            else
              ({ s with entryText := "" },
               { noEffects with logs := ["Clipboard error"],
                                notifications := ["Error copying to clipboard"] })
        | none =>
            ({ s with entryText := "" },
             { noEffects with logs := ["No match found for: " ++ commitTerm s],
                              notifications := ["No match found for: " ++ commitTerm s] })
  else ({ s with entryText := "" }, noEffects)

/-- `use_suggestion` (lines 434-447), with the listbox selection and the
clipboard outcome made explicit.  `sel` is `curselection()`'s first index, if
any; the body guards `0 <= index < len(current_suggestions)` and otherwise
does nothing.  On a clipboard failure the exception is caught by the outer
`except` (lines 445-447), which only prints, so neither `hide_quick_input`
nor the notification runs. -/
def useSuggestion (sel : Option Nat) (clipOk : Bool) (s : OverlayState) :
    OverlayState × Effects :=
  match sel with
  | none => (s, noEffects)
  | some index =>
    match s.currentSuggestions[index]? with
    | none => (s, noEffects)
    | some row =>
        if clipOk then
          (hideQuickInput s,
           { noEffects with clipboardWrites := [row.2],
                            notifications := ["Copied: " ++ row.1] })
        else
          (s, { noEffects with logs := ["Error using suggestion"] })

/-! ## Concrete sessions and stores used by the counterexamples and
witnesses. -/

def demoStoreEm : Store := [("eml", "me@example.com"), ("em2", "alt@example.com")]

def demoStoreHi : Store := [("hi", "hello")]

def demoStoreB : Store := [("abc", "C1"), ("zb", "C2")]

def demoListState : OverlayState :=
  { quickVisible := true, suggVisible := true,
    currentSuggestions := demoStoreEm, entryText := "/em" }

def demoHiState : OverlayState :=
  { quickVisible := true, suggVisible := false,
    currentSuggestions := demoStoreHi, entryText := "/hi" }

def demoBState : OverlayState :=
  { quickVisible := true, suggVisible := false,
    currentSuggestions := [], entryText := "/b" }

def demoNoMatchState : OverlayState :=
  { quickVisible := true, suggVisible := false,
    currentSuggestions := [], entryText := "/zz" }

def demoSpaceState : OverlayState :=
  { quickVisible := true, suggVisible := false,
    currentSuggestions := [], entryText := "hello" }

def demoWildState : OverlayState :=
  { quickVisible := true, suggVisible := false,
    currentSuggestions := [], entryText := "/_" }

/-! ## Supporting facts about the row orders -/

theorem partialLe_total (a b : String × String) :
    partialLe a b = true ∨ partialLe b a = true :=
  keyLe_total (partialKey a) (partialKey b)

theorem partialLe_trans (a b c : String × String)
    (h1 : partialLe a b = true) (h2 : partialLe b c = true) : partialLe a c = true :=
  keyLe_trans (partialKey a) (partialKey b) (partialKey c) h1 h2

theorem partialLe_refl (a : String × String) : partialLe a a = true :=
  keyLe_refl (partialKey a)

theorem rankLe_total (t : String) (a b : String × String) :
    rankLe t a b = true ∨ rankLe t b a = true :=
  keyLe_total (rankKey t a) (rankKey t b)

theorem rankLe_trans (t : String) (a b c : String × String)
    (h1 : rankLe t a b = true) (h2 : rankLe t b c = true) : rankLe t a c = true :=
  keyLe_trans (rankKey t a) (rankKey t b) (rankKey t c) h1 h2

/-- For wildcard-free terms the source's `LIKE` filter is literal
containment of the term in the lowered alias. -/
theorem matchPred_noWild (t : String) (row : String × String)
    (h : noWildcards t.toList = true) :
    matchPred t row = containsL t.toList (lowerStr row.1).toList :=
  likeMatch_contains_noWild t.toList h (lowerStr row.1).toList

/-- For wildcard-free terms the source's `LIKE`-based tier is the spec's
literal tier. -/
theorem tierOf_noWild (t : String) (row : String × String)
    (h : noWildcards t.toList = true) : tierOf t row = specTierOf t row := by
  rw [tierOf, specTierOf, likeMatch_prefix_noWild t.toList h]

/-- For wildcard-free terms the source's ranking order is the spec's
literal-tier ranking order. -/
theorem rankLe_noWild (t : String) (x y : String × String)
    (h : noWildcards t.toList = true) : rankLe t x y = specRankLe t x y := by
  rw [rankLe, specRankLe, rankKey, rankKey, tierOf_noWild t x h, tierOf_noWild t y h]

/-! ## Claim C1 — escape from either focus -/

/-- Claim C1 as stated is false: in the session `demoListState` (overlay
visible, suggestion list showing) escape with focus on the suggestion list
runs `hide_suggestions` (binding at src/main.py line 266), which leaves the
quick-input window visible instead of transitioning the overlay to HIDDEN. -/
theorem C1_counterexample :
    demoListState.quickVisible = true ∧
    (escapeOnList demoListState).1.quickVisible = true ∧
    (escapeOnList demoListState).2.clipboardWrites = [] := by
  decide

/-- Claim C1 (amended): from any visible overlay state, escape with focus on
the text field hides the whole overlay (HIDDEN) with no clipboard write;
escape with focus on the suggestion list hides only the suggestion surface,
leaving the overlay visible, also with no clipboard write. -/
theorem C1_escape (s : OverlayState) (h : s.quickVisible = true) :
    (escapeOnInput s).1.quickVisible = false ∧
    (escapeOnInput s).1.suggVisible = false ∧
    (escapeOnInput s).2.clipboardWrites = [] ∧
    (escapeOnList s).1.quickVisible = true ∧
    (escapeOnList s).1.suggVisible = false ∧
    (escapeOnList s).2.clipboardWrites = [] := by
  simp [escapeOnInput, escapeOnList, toggleQuickInput, hideQuickInput,
    hideSuggestions, noEffects, h]

/-- Witness for `C1_escape` at the concrete visible session `demoHiState`. -/
theorem C1_escape_witness :
    (escapeOnInput demoHiState).1.quickVisible = false ∧
    (escapeOnInput demoHiState).1.suggVisible = false ∧
    (escapeOnInput demoHiState).2.clipboardWrites = [] ∧
    (escapeOnList demoHiState).1.quickVisible = true ∧
    (escapeOnList demoHiState).1.suggVisible = false ∧
    (escapeOnList demoHiState).2.clipboardWrites = [] :=
  C1_escape demoHiState (by decide)

/-! ## Claim C2 — clipboard failure on commit -/

/-- Claim C2 as stated is false: in session `demoHiState` the query `/hi`
resolves to content `"hello"`, but when the clipboard write fails
`process_quick_input` skips `hide_quick_input` (it is inside the `try` at
src/main.py lines 536-540, after `pyperclip.copy`), so the overlay stays
visible instead of transitioning to HIDDEN. -/
theorem C2_counterexample :
    resolveQuery (commitTerm demoHiState) demoStoreHi = some "hello" ∧
    (processQuickInput demoStoreHi none false demoHiState).1.quickVisible = true ∧
    (processQuickInput demoStoreHi none false demoHiState).2.clipboardWrites = [] := by
  decide

/-- Claim C2 (amended): when the clipboard write fails on a commit, no
clipboard write happens and the overlay keeps its current visibility instead
of transitioning to HIDDEN.  The input-field commit path logs and notifies
the user; the suggestion-list commit path only logs (the failure propagates
to the outer `except`, skipping both `hide_quick_input` and the
notification). -/
theorem C2_clipboardFailure (store : Store) (s : OverlayState) (c : String) (i : Nat)
    (hslash : startsSlash (pyStrip s.entryText) = true)
    (hres : resolveQuery (commitTerm s) store = some c)
    (hi : i < s.currentSuggestions.length) :
    ((processQuickInput store none false s).1.quickVisible = s.quickVisible ∧
     (processQuickInput store none false s).2.clipboardWrites = [] ∧
     (processQuickInput store none false s).2.notifications = ["Error copying to clipboard"] ∧
     (processQuickInput store none false s).2.logs ≠ []) ∧
    ((useSuggestion (some i) false s).1 = s ∧
     (useSuggestion (some i) false s).2.clipboardWrites = [] ∧
     (useSuggestion (some i) false s).2.notifications = [] ∧
     (useSuggestion (some i) false s).2.logs ≠ []) := by
  constructor
  · simp [processQuickInput, hslash, hres, noEffects]
  · have hg := List.getElem?_eq_getElem hi
    simp [useSuggestion, hg, noEffects]

/-- Witness for `C2_clipboardFailure` at the concrete session `demoHiState`
with store `demoStoreHi` and selected index 0. -/
theorem C2_clipboardFailure_witness :
    ((processQuickInput demoStoreHi none false demoHiState).1.quickVisible =
       demoHiState.quickVisible ∧
     (processQuickInput demoStoreHi none false demoHiState).2.clipboardWrites = [] ∧
     (processQuickInput demoStoreHi none false demoHiState).2.notifications =
       ["Error copying to clipboard"] ∧
     (processQuickInput demoStoreHi none false demoHiState).2.logs ≠ []) ∧
    ((useSuggestion (some 0) false demoHiState).1 = demoHiState ∧
     (useSuggestion (some 0) false demoHiState).2.clipboardWrites = [] ∧
     (useSuggestion (some 0) false demoHiState).2.notifications = [] ∧
     (useSuggestion (some 0) false demoHiState).2.logs ≠ []) :=
  C2_clipboardFailure demoStoreHi demoHiState "hello" 0 (by decide) (by decide) (by decide)

/-! ## Claim C3 — store query failure on a keystroke -/

/-- Claim C3 as stated is false: in session `demoListState` (suggestions
visible for `/em`) a failing store query makes `update_suggestions` log and
return (the `except` at src/main.py lines 322-324 only prints), so the
suggestion surface stays visible with its stale rows instead of being
treated as an empty result and hidden. -/
theorem C3_counterexample :
    (updateSuggestions [] (some "db down") demoListState).1.suggVisible = true ∧
    (updateSuggestions [] (some "db down") demoListState).1.currentSuggestions =
      demoStoreEm := by
  decide

/-- Claim C3 (amended): when the store query raises during a keystroke
transition, the error is logged and the state machine survives (no clipboard
write, no notification), but the overlay session — including a visible
suggestion surface and its stale rows — is left unchanged, not hidden. -/
theorem C3_storeErrorKeepsState (store : Store) (msg : String) (s : OverlayState)
    (h : startsSlash (pyStrip s.entryText) = true) :
    (updateSuggestions store (some msg) s).1 = s ∧
    (updateSuggestions store (some msg) s).2.logs =
      ["Error updating suggestions: " ++ msg] ∧
    (updateSuggestions store (some msg) s).2.clipboardWrites = [] ∧
    (updateSuggestions store (some msg) s).2.notifications = [] := by
  simp [updateSuggestions, h, noEffects]

/-- Witness for `C3_storeErrorKeepsState` at `demoListState`. -/
theorem C3_storeErrorKeepsState_witness :
    (updateSuggestions demoStoreEm (some "db down") demoListState).1 = demoListState ∧
    (updateSuggestions demoStoreEm (some "db down") demoListState).2.logs =
      ["Error updating suggestions: " ++ "db down"] ∧
    (updateSuggestions demoStoreEm (some "db down") demoListState).2.clipboardWrites = [] ∧
    (updateSuggestions demoStoreEm (some "db down") demoListState).2.notifications = [] :=
  C3_storeErrorKeepsState demoStoreEm "db down" demoListState (by decide)

/-! ## Claim C4 — toggle from a visible state -/

/-- Claim C4 as stated is false: toggling `demoListState` off runs
`hide_quick_input` (src/main.py lines 481-491), which only withdraws the two
windows; the query text and `current_suggestions` are not discarded — the
session is not reset to its defaults at toggle-off. -/
theorem C4_counterexample :
    (toggleQuickInput demoListState).quickVisible = false ∧
    (toggleQuickInput demoListState).entryText = "/em" ∧
    (toggleQuickInput demoListState).currentSuggestions = demoStoreEm := by
  decide

/-- Claim C4 (amended): toggling a visible overlay off hides both surfaces
but leaves the query text and the stored suggestion list in place; the query
is only cleared by the next toggle-on (`show_quick_input`, line 467), so no
query text survives a full hide/show cycle, while the stored suggestion list
does persist across the cycle. -/
theorem C4_toggleKeepsSession (s : OverlayState) (h : s.quickVisible = true) :
    (toggleQuickInput s).quickVisible = false ∧
    (toggleQuickInput s).suggVisible = false ∧
    (toggleQuickInput s).entryText = s.entryText ∧
    (toggleQuickInput s).currentSuggestions = s.currentSuggestions ∧
    (toggleQuickInput (toggleQuickInput s)).entryText = "" ∧
    (toggleQuickInput (toggleQuickInput s)).currentSuggestions =
      s.currentSuggestions := by
  simp [toggleQuickInput, hideQuickInput, showQuickInput, h]

/-- Witness for `C4_toggleKeepsSession` at `demoListState`. -/
theorem C4_toggleKeepsSession_witness :
    (toggleQuickInput demoListState).quickVisible = false ∧
    (toggleQuickInput demoListState).suggVisible = false ∧
    (toggleQuickInput demoListState).entryText = demoListState.entryText ∧
    (toggleQuickInput demoListState).currentSuggestions =
      demoListState.currentSuggestions ∧
    (toggleQuickInput (toggleQuickInput demoListState)).entryText = "" ∧
    (toggleQuickInput (toggleQuickInput demoListState)).currentSuggestions =
      demoListState.currentSuggestions :=
  C4_toggleKeepsSession demoListState (by decide)

/-! ## Claim C8 — queries without the trigger character -/

/-- Claim C8 as stated is false: `update_suggestions` strips the entry text
before testing for the trigger character (src/main.py line 281), so the
query `" /a"` — which does not start with `'/'` — still produces a
non-empty match result. -/
theorem C8_counterexample :
    startsSlash " /a" = false ∧ matchRows " /a" [("a", "b")] = [("a", "b")] := by
  decide

/-- Claim C8 (amended): for every query whose whitespace-stripped text does
not start with the trigger character, the match result is empty and the
keystroke handler hides the suggestion surface. -/
theorem C8_noTrigger (store : Store) (dbFail : Option String) (s : OverlayState)
    (h : startsSlash (pyStrip s.entryText) = false) :
    matchRows s.entryText store = [] ∧
    (updateSuggestions store dbFail s).1.suggVisible = false ∧
    (updateSuggestions store dbFail s).1.currentSuggestions = [] := by
  simp [matchRows, updateSuggestions, hideSuggestions, h]

/-- Witness for `C8_noTrigger` at the session whose entry text is `hello`. -/
theorem C8_noTrigger_witness :
    matchRows demoSpaceState.entryText demoStoreEm = [] ∧
    (updateSuggestions demoStoreEm none demoSpaceState).1.suggVisible = false ∧
    (updateSuggestions demoStoreEm none demoSpaceState).1.currentSuggestions = [] :=
  C8_noTrigger demoStoreEm none demoSpaceState (by decide)

/-! ## Claim C9 — the match result is bounded by 10 -/

/-- Claim C9: both store queries of `update_suggestions` carry `LIMIT 10`
(src/main.py lines 298 and 312), so for every query and store content the
match result — and hence the suggestion list installed by a keystroke —
has length at most 10. -/
theorem C9_matchBounded (q : String) (store : Store) (s : OverlayState) :
    (matchRows q store).length ≤ 10 ∧
    ((updateSuggestions store none s).1.currentSuggestions).length ≤ 10 := by
  have hm : ∀ q' : String, (matchRows q' store).length ≤ 10 := by
    intro q'
    simp only [matchRows]
    by_cases h : startsSlash (pyStrip q') = true
    · rw [if_pos h]
      by_cases h2 : (lowerStr (strTail (pyStrip q'))).toList.isEmpty = true
      · rw [if_pos h2, listAllRows, List.length_take]
        omega
      · rw [if_neg h2, searchRows, List.length_take]
        omega
    · rw [if_neg h]
      exact Nat.zero_le 10
  refine ⟨hm q, ?_⟩
  by_cases hs : startsSlash (pyStrip s.entryText) = true
  · by_cases he : (matchRows s.entryText store).isEmpty = true
    · simp [updateSuggestions, hs, he, hideSuggestions]
    · simp only [updateSuggestions, if_pos hs]
      rw [if_neg he]
      simpa [showSuggestions] using hm s.entryText
  · simp [updateSuggestions, hs, hideSuggestions]

/-! ## Claim C10 — commit from the list with no valid selection -/

/-- Claim C10: `use_suggestion` (src/main.py lines 434-447) guards on
`curselection()` being non-empty and on `0 <= index < len(current_suggestions)`;
with no selection or an out-of-range index it writes nothing to the clipboard
and leaves the overlay state untouched. -/
theorem C10_invalidSelection (s : OverlayState) (clipOk : Bool) (sel : Option Nat)
    (h : sel = none ∨ ∃ i, sel = some i ∧ s.currentSuggestions.length ≤ i) :
    useSuggestion sel clipOk s = (s, noEffects) := by
  rcases h with h | ⟨i, hi, hlen⟩
  · rw [h]
    rfl
  · rw [hi]
    have hg : s.currentSuggestions[i]? = none := List.getElem?_eq_none hlen
    simp [useSuggestion, hg]

/-- Witness for `C10_invalidSelection`: index 5 is out of range for the
single-row suggestion list of `demoHiState`. -/
theorem C10_invalidSelection_witness :
    useSuggestion (some 5) true demoHiState = (demoHiState, noEffects) :=
  C10_invalidSelection demoHiState true (some 5) (Or.inr ⟨5, rfl, by decide⟩)

/-! ## Claim C7 — ranking of the suggestion list -/

/-- Claim C7 as stated is false: the source interpolates the raw term into
its `LIKE` patterns (src/main.py line 299), so SQLite treats the term's `%`
as a wildcard.  The query `/a%` against the store `[("ax", "1")]` lists the
alias `ax`, which neither equals, literally starts with, nor literally
contains the term `a%` — the claimed tier description does not cover the
produced suggestion. -/
theorem C7_counterexample :
    matchRows "/a%" [("ax", "1")] = [("ax", "1")] ∧
    lowerStr "ax" ≠ "a%" ∧
    prefixB ("a%".toList) (lowerStr "ax").toList = false ∧
    containsL ("a%".toList) (lowerStr "ax").toList = false := by
  decide

/-- Claim C7 (amended): the suggestion rows are always sorted by the
program's `(tier, length, alias)` key, whose tier tests are `LIKE` patterns
built from the raw term; for terms free of the wildcard characters `%` and
`_` this is exactly the claimed ordering — exact case-insensitive match
first, then literal prefix matches, then other literal substring matches,
each tier by ascending alias length and then lexically — and every listed
alias then literally contains the term.  On the store
`{("eml", ...), ("em2", ...)}` the query `/em` yields the order
`["em2", "eml"]`. -/
theorem C7_ranking :
    (∀ (t : String) (store : Store),
       (searchRows t store).Pairwise (fun x y => rankLe t x y = true)) ∧
    (∀ (t : String) (store : Store), noWildcards t.toList = true →
       (∀ row ∈ searchRows t store,
          containsL t.toList (lowerStr row.1).toList = true) ∧
       (searchRows t store).Pairwise (fun x y => specRankLe t x y = true)) ∧
    matchRows "/em" demoStoreEm =
      [("em2", "alt@example.com"), ("eml", "me@example.com")] := by
  have hsorted : ∀ (t : String) (store : Store),
      (searchRows t store).Pairwise (fun x y => rankLe t x y = true) := by
    intro t store
    have hp := pairwise_iSort (rankLe t) (rankLe_total t) (rankLe_trans t)
      (store.filter (matchPred t))
    exact List.Pairwise.sublist (List.take_sublist 10 _) hp
  refine ⟨hsorted, ?_, by decide⟩
  intro t store hw
  constructor
  · intro row hrow
    have hrow2 : row ∈ iSort (rankLe t) (store.filter (matchPred t)) :=
      (List.take_sublist 10 _).subset hrow
    have hrow3 : row ∈ store.filter (matchPred t) :=
      (iSort_perm (rankLe t) _).mem_iff.mp hrow2
    have hpred := (List.mem_filter.mp hrow3).2
    rw [matchPred_noWild t row hw] at hpred
    exact hpred
  · refine (hsorted t store).imp ?_
    intro x y hxy
    rw [rankLe_noWild t x y hw] at hxy
    exact hxy

/-- Witness for `C7_ranking` at the wildcard-free term `em` and the store
`demoStoreEm`. -/
theorem C7_ranking_witness :
    (∀ row ∈ searchRows "em" demoStoreEm,
       containsL ("em".toList) (lowerStr row.1).toList = true) ∧
    (searchRows "em" demoStoreEm).Pairwise
      (fun x y => specRankLe "em" x y = true) :=
  C7_ranking.2.1 "em" demoStoreEm (by decide)

/-! ## Claim C6 — commit with no match at all -/

/-- Claim C6: when an input-field commit resolves to no alias (no exact
match and no row matching the `LIKE '%term%'` pattern), `process_quick_input`
emits the "no match" notification, clears the query, writes nothing and
keeps the overlay visible (it never reaches `hide_quick_input`); moreover
the same `LIKE` filter backs the suggestion query, so the keystroke handler
on that query hides the suggestion surface — the overlay is in the visible,
no-suggestions configuration. -/
theorem C6_noMatchCommit (store : Store) (s : OverlayState)
    (hslash : startsSlash (pyStrip s.entryText) = true)
    (hres : resolveQuery (commitTerm s) store = none) :
    ((processQuickInput store none true s).1.quickVisible = s.quickVisible ∧
     (processQuickInput store none true s).1.entryText = "" ∧
     (processQuickInput store none true s).2.notifications =
       ["No match found for: " ++ commitTerm s] ∧
     (processQuickInput store none true s).2.clipboardWrites = []) ∧
    ((updateSuggestions store none s).1.suggVisible = false ∧
     (updateSuggestions store none s).1.currentSuggestions = []) := by
  have hfilnil : store.filter (matchPred (commitTerm s)) = [] := by
    have h1 : partialRows (commitTerm s) store = [] := by
      cases hP : partialRows (commitTerm s) store with
      | nil => rfl
      | cons r rest =>
        exfalso
        cases hE : (exactRows (commitTerm s) store).head? with
        | some row => simp [resolveQuery, hE] at hres
        | none => simp [resolveQuery, hE, hP] at hres
    rw [partialRows] at h1
    exact (iSort_eq_nil_iff partialLe _).mp h1
  have hmatch : matchRows s.entryText store = [] := by
    simp only [matchRows]
    rw [if_pos hslash]
    by_cases hE : (lowerStr (strTail (pyStrip s.entryText))).toList.isEmpty = true
    · have hstore : store = [] := by
        cases hst : store with
        | nil => rfl
        | cons r rest =>
          exfalso
          have hpred : matchPred (commitTerm s) r = true := by
            have hnil : (commitTerm s).toList = [] := by
              simpa [commitTerm] using hE
            rw [matchPred, hnil, likeMatch_contains_noWild [] rfl]
            exact containsL_nil _
          rw [hst, List.filter_cons_of_pos hpred] at hfilnil
          exact List.cons_ne_nil r _ hfilnil
      rw [if_pos hE, hstore]
      rfl
    · rw [if_neg hE]
      show (iSort (rankLe (commitTerm s))
        (store.filter (matchPred (commitTerm s)))).take 10 = []
      rw [hfilnil]
      rfl
  constructor
  · simp [processQuickInput, hslash, hres, noEffects]
  · simp [updateSuggestions, hslash, hmatch, hideSuggestions]

/-- Witness for `C6_noMatchCommit`: an empty store and the query `/zz`. -/
theorem C6_noMatchCommit_witness :
    ((processQuickInput [] none true demoNoMatchState).1.quickVisible =
       demoNoMatchState.quickVisible ∧
     (processQuickInput [] none true demoNoMatchState).1.entryText = "" ∧
     (processQuickInput [] none true demoNoMatchState).2.notifications =
       ["No match found for: " ++ commitTerm demoNoMatchState] ∧
     (processQuickInput [] none true demoNoMatchState).2.clipboardWrites = []) ∧
    ((updateSuggestions [] none demoNoMatchState).1.suggVisible = false ∧
     (updateSuggestions [] none demoNoMatchState).1.currentSuggestions = []) :=
  C6_noMatchCommit [] demoNoMatchState (by decide) (by decide)

/-! ## Claim C5 — commit-time resolution priority -/

/-- Claim C5 as stated is false: the source interpolates the raw term into
the partial-match `LIKE` pattern (src/main.py line 526), so SQLite treats
the term's `_` as a single-character wildcard.  Committing `/_` against the
store `[("ab", "X")]` resolves to and copies `X`, although the alias `ab`
does not contain the term `_` — the chosen row is not "an alias containing
the term". -/
theorem C5_counterexample :
    resolveQuery "_" [("ab", "X")] = some "X" ∧
    containsL ("_".toList) (lowerStr "ab").toList = false ∧
    (processQuickInput [("ab", "X")] none true demoWildState).2.clipboardWrites
      = ["X"] := by
  decide

/-- Claim C5 (amended): an input-field commit on a trigger query resolves
with a case-insensitive exact alias match taking priority; failing that, the
chosen row matches the `LIKE` pattern `'%term%'` (the term's `%` and `_` act
as wildcards) and is minimal in the shortest-length-then-lexical order among
all rows matching that pattern.  For terms free of wildcard characters the
pattern test is literal containment, giving exactly the claimed "shortest
alias containing the term".  The resolved content is what the handler writes
to the clipboard (and the overlay then hides). -/
theorem C5_resolvePriority (t : String) (store : Store) :
    (exactRows t store ≠ [] →
       ∃ row, row ∈ store ∧ lowerStr row.1 = t ∧
         resolveQuery t store = some row.2) ∧
    (exactRows t store = [] →
       ∀ c, resolveQuery t store = some c →
         ∃ row, row ∈ store ∧ matchPred t row = true ∧ row.2 = c ∧
           ∀ r2 ∈ store, matchPred t r2 = true → partialLe row r2 = true) ∧
    (noWildcards t.toList = true →
       ∀ row : String × String,
         matchPred t row = containsL t.toList (lowerStr row.1).toList) ∧
    (∀ s : OverlayState, startsSlash (pyStrip s.entryText) = true →
       ∀ c, resolveQuery (commitTerm s) store = some c →
         (processQuickInput store none true s).2.clipboardWrites = [c] ∧
         (processQuickInput store none true s).1.quickVisible = false) := by
  refine ⟨?_, ?_, fun hw row => matchPred_noWild t row hw, ?_⟩
  · intro hne
    cases hE : exactRows t store with
    | nil => exact absurd hE hne
    | cons r rest =>
      have hrmem : r ∈ exactRows t store := by
        rw [hE]
        exact List.mem_cons_self r rest
      have hfil := List.mem_filter.mp hrmem
      refine ⟨r, hfil.1, of_decide_eq_true hfil.2, ?_⟩
      simp [resolveQuery, hE]
  · intro hE c hres
    have hhead : ∃ row, (partialRows t store).head? = some row ∧ row.2 = c := by
      cases hP : (partialRows t store).head? with
      | none => simp [resolveQuery, hE, hP] at hres
      | some row =>
        refine ⟨row, rfl, ?_⟩
        have hsome : some row.2 = some c := by
          simpa [resolveQuery, hE, hP] using hres
        exact Option.some.inj hsome
    obtain ⟨row, hP, hc⟩ := hhead
    have hsorted := pairwise_iSort partialLe partialLe_total partialLe_trans
      (store.filter (matchPred t))
    obtain ⟨hmemSorted, hle⟩ :=
      head_min partialLe partialLe_refl (partialRows t store) row hsorted hP
    have hmemFilter : row ∈ store.filter (matchPred t) :=
      (iSort_perm partialLe _).mem_iff.mp hmemSorted
    have hfil := List.mem_filter.mp hmemFilter
    refine ⟨row, hfil.1, hfil.2, hc, ?_⟩
    intro r2 hr2 hp2
    have hr2sorted : r2 ∈ partialRows t store :=
      (iSort_perm partialLe _).mem_iff.mpr (List.mem_filter.mpr ⟨hr2, hp2⟩)
    exact hle r2 hr2sorted
  · intro s hslash c hres
    simp [processQuickInput, hslash, hres, noEffects]

/-- Witness for `C5_resolvePriority`: on the store
`[("abc", "C1"), ("zb", "C2")]` the term `b` has no exact match; the chosen
partial match is `("zb", "C2")` — the shortest alias containing `b` —,
the wildcard-free pattern test is literal containment, and committing `/b`
writes `C2` to the clipboard. -/
theorem C5_resolvePriority_witness :
    (∃ row, row ∈ demoStoreB ∧ matchPred "b" row = true ∧ row.2 = "C2" ∧
       ∀ r2 ∈ demoStoreB, matchPred "b" r2 = true → partialLe row r2 = true) ∧
    matchPred "b" ("zb", "C2") =
      containsL ("b".toList) (lowerStr "zb").toList ∧
    (processQuickInput demoStoreB none true demoBState).2.clipboardWrites = ["C2"] := by
  refine ⟨?_, ?_, ?_⟩
  · exact (C5_resolvePriority "b" demoStoreB).2.1 (by decide) "C2" (by decide)
  · exact (C5_resolvePriority "b" demoStoreB).2.2.1 (by decide) ("zb", "C2")
  · exact ((C5_resolvePriority "b" demoStoreB).2.2.2 demoBState (by decide)
      "C2" (by decide)).1
